import Mathlib

/-!
# Verification of the DrHPotter honeypot session engine

Shallow embedding of the honeypot's session engine (Rust sources under
`src/`) in Lean 4, together with theorems settling the frozen claims about
the natural-language specification.

Modelling conventions:
* Machine integers (`usize`, `u64`, `u32`, `u16`) are modelled as `Nat`;
  overflow never matters for the quantities involved (counts, seconds).
* Clock reads (`Utc::now()`, `Instant::now()`) become explicit `Nat`
  parameters (seconds); `Duration::as_secs` of `now.duration_since start`
  is the saturating subtraction `now - start` on `Nat`.
* Rust `PathBuf` values are modelled by their component lists
  (`FsPath := List String`); the root `/` is `[]`.  Rust compares paths by
  their component sequences (`PathBuf` equality) or by the rendered string
  of the canonical absolute path (`to_string_lossy`); on the canonical
  absolute paths manipulated by this program both coincide with equality
  of component lists, which is what the model uses.
* String splitting and trimming are implemented over the character list
  (`String.data`) so that every definition reduces inside the kernel; they
  compute the same functions as Rust's `split`/`trim`/`split_whitespace`
  on the strings involved.
* `HashMap` becomes an association list; iteration-order-insensitive
  operations (lookup, insert of a fresh key, retain) are modelled by
  `find?`, cons and `filter`.
* `async` functions are pure here (their only effects are tracing and
  sleeping); `&mut` parameters are returned as extra components.
-/

/-! ## String helpers (kernel-reducible versions of Rust string ops) -/

/-- Split a character list at every occurrence of `sep` (occurrences
delimit fields; empty fields are kept, as in Rust's `str::split`). -/
def splitOnChar (sep : Char) : List Char → List (List Char)
  | [] => [[]]
  | a :: rest =>
    if a = sep then [] :: splitOnChar sep rest
    else
      match splitOnChar sep rest with
      | [] => [[a]]
      | h :: t => (a :: h) :: t

/-- Whitespace test matching Rust `char::is_whitespace` on the ASCII
whitespace that can occur in this program's strings. -/
def isWS (c : Char) : Bool :=
  c = ' ' || c = '\t' || c = '\n' || c = '\r'

/-- Rust `str::trim`: strip leading and trailing whitespace. -/
def trimStr (s : String) : String :=
  String.mk (((s.data.dropWhile isWS).reverse.dropWhile isWS).reverse)

/-- Rust `str::split_whitespace`: split on whitespace runs, no empties. -/
def splitWhitespaceStr (s : String) : List String :=
  ((splitOnChar ' ' (s.data.map (fun c => if isWS c then ' ' else c))).map
    String.mk).filter (fun t => t ≠ "")

/-- Rust `str::starts_with` for a single-character pattern. -/
def startsWithChar (s : String) (c : Char) : Bool :=
  match s.data with
  | [] => false
  | a :: _ => a = c

/-! ## Path model (Rust `std::path::PathBuf` on canonical absolute paths) -/

/-- Components of an absolute POSIX path; `[]` is the root `/`. -/
abbrev FsPath := List String

namespace FsPath

/-- `Path::parent`: drop the final component; `none` for the root. -/
def parentOf (p : FsPath) : Option FsPath :=
  match p with
  | [] => none
  | _ => some p.dropLast

/-- `Path::file_name`: the final component, `none` for the root or a path
ending in `..` (mirrors Rust, which has no file name for such paths). -/
def fileNameOf (p : FsPath) : Option String :=
  match p.getLast? with
  | none => none
  | some c => if c = ".." then none else some c

/-- `PathBuf::from` / the components of a path string: split on `/`,
dropping empty components and `.` (exactly the normalisation Rust's
`Components` iterator performs on the strings this program builds). -/
def parsePath (s : String) : FsPath :=
  ((splitOnChar '/' s.data).map String.mk).filter (fun c => c ≠ "" && c ≠ ".")

/-- `Path::display`: render an absolute path back to a string. -/
def renderPath (p : FsPath) : String :=
  match p with
  | [] => "/"
  | _ => String.join (p.map (fun c => "/" ++ c))

end FsPath

open FsPath

/-! ## Sorting helper: Rust `Vec::sort` + `Vec::dedup`

`Vec::sort` is a stable comparison sort by `Ord`; `Vec::dedup` removes
consecutive duplicates.  `dedupAdj` is the consecutive-duplicate
removal. -/

/-- `Vec::dedup`: remove consecutive equal elements. -/
def dedupAdj {α : Type} [DecidableEq α] : List α → List α
  | [] => []
  | [a] => [a]
  | a :: b :: rest =>
    if a = b then dedupAdj (b :: rest) else a :: dedupAdj (b :: rest)

theorem mem_dedupAdj {α : Type} [DecidableEq α] (x : α) :
    ∀ (l : List α), x ∈ dedupAdj l ↔ x ∈ l := by
  intro l
  induction l with
  | nil => simp [dedupAdj]
  | cons a tl ih =>
    cases tl with
    | nil => simp [dedupAdj]
    | cons b rest =>
      by_cases hab : a = b
      · subst hab
        have h1 : dedupAdj (a :: a :: rest) = dedupAdj (a :: rest) := by
          simp [dedupAdj]
        rw [h1, ih]
        constructor
        · intro h
          exact List.mem_cons_of_mem a h
        · intro h
          rcases List.mem_cons.mp h with h | h
          · subst h
            exact List.mem_cons_self x rest
          · exact h
      · have h2 : dedupAdj (a :: b :: rest) = a :: dedupAdj (b :: rest) := by
          simp [dedupAdj, hab]
        rw [h2]
        simp only [List.mem_cons, ih]

theorem sorted_lt_dedupAdj {α : Type} [DecidableEq α] [LinearOrder α] :
    ∀ (l : List α), l.Sorted (· ≤ ·) → (dedupAdj l).Sorted (· < ·) := by
  intro l
  induction l with
  | nil => intro _; simp [dedupAdj]
  | cons a tl ih =>
    cases tl with
    | nil => intro _; simp [dedupAdj]
    | cons b rest =>
      intro hs
      rw [List.sorted_cons] at hs
      obtain ⟨hall, hs'⟩ := hs
      by_cases hab : a = b
      · subst hab
        have h1 : dedupAdj (a :: a :: rest) = dedupAdj (a :: rest) := by
          simp [dedupAdj]
        rw [h1]
        exact ih hs'
      · have h2 : dedupAdj (a :: b :: rest) = a :: dedupAdj (b :: rest) := by
          simp [dedupAdj, hab]
        rw [h2, List.sorted_cons]
        refine ⟨?_, ih hs'⟩
        intro c hc
        rw [mem_dedupAdj] at hc
        have hle : a ≤ c := hall c hc
        rcases List.mem_cons.mp hc with hcb | hcr
        · subst hcb
          exact lt_of_le_of_ne hle hab
        · have hbc : b ≤ c := (List.sorted_cons.mp hs').1 c hcr
          have hablt : a < b :=
            lt_of_le_of_ne (hall b (List.mem_cons_self b rest)) hab
          exact lt_of_lt_of_le hablt hbc

/-! ## Fake filesystem (`src/shell/filesystem.rs`) -/

/-- `FakeFilesystem`: files as a path-to-content map (`HashMap<PathBuf,
String>` becomes an association list) and a vector of directory paths. -/
structure FakeFilesystem where
  files : List (FsPath × String)
  dirs : List FsPath

namespace FakeFilesystem

/-- `FakeFilesystem::create_dir`. -/
def create_dir (fs : FakeFilesystem) (path : String) : FakeFilesystem :=
  { fs with dirs := fs.dirs ++ [parsePath path] }

/-- `FakeFilesystem::create_file`. -/
def create_file (fs : FakeFilesystem) (path : String) (content : String) :
    FakeFilesystem :=
  { fs with files := fs.files ++ [(parsePath path, content)] }

/-- `FakeFilesystem::new`: the fixed seed image.  Rust string-literal line
continuations (`\` + newline) swallow the following indentation, so each
content string is the plain concatenation written here. -/
def new : FakeFilesystem :=
  let fs : FakeFilesystem := { files := [], dirs := [] }
  let fs := fs.create_dir "/"
  let fs := fs.create_dir "/root"
  let fs := fs.create_dir "/home"
  let fs := fs.create_dir "/etc"
  let fs := fs.create_dir "/var"
  let fs := fs.create_dir "/tmp"
  let fs := fs.create_dir "/usr"
  let fs := fs.create_dir "/bin"
  let fs := fs.create_dir "/sbin"
  let fs := fs.create_file "/etc/passwd"
    "root:x:0:0:root:/root:/bin/bash\ndaemon:x:1:1:daemon:/usr/sbin:/usr/sbin/nologin\nbin:x:2:2:bin:/bin:/usr/sbin/nologin\nsys:x:3:3:sys:/dev:/usr/sbin/nologin\nsync:x:4:65534:sync:/bin:/bin/sync\nwww-data:x:33:33:www-data:/var/www:/usr/sbin/nologin\nnobody:x:65534:65534:nobody:/nonexistent:/usr/sbin/nologin\n"
  let fs := fs.create_file "/etc/shadow"
    "root:$6$rounds=656000$YT...:19000:0:99999:7:::\ndaemon:*:18375:0:99999:7:::\nbin:*:18375:0:99999:7:::\n"
  let fs := fs.create_file "/etc/hosts"
    "127.0.0.1\tlocalhost\n127.0.1.1\thoneypot\n\n::1     localhost ip6-localhost ip6-loopback\nff02::1 ip6-allnodes\nff02::2 ip6-allrouters\n"
  let fs := fs.create_file "/etc/hostname" "honeypot\n"
  let fs := fs.create_file "/etc/os-release"
    "PRETTY_NAME=\"Ubuntu 22.04.1 LTS\"\nNAME=\"Ubuntu\"\nVERSION_ID=\"22.04\"\nVERSION=\"22.04.1 LTS (Jammy Jellyfish)\"\nVERSION_CODENAME=jammy\nID=ubuntu\nID_LIKE=debian\n"
  let fs := fs.create_file "/root/.bashrc"
    "# .bashrc\n\n# If not running interactively, don\x27t do anything\ncase $- in\n    *i*) ;;\n      *) return;;\nesac\n"
  let fs := fs.create_file "/root/.bash_history"
    "ls -la\ncd /tmp\nwget http://example.com/script.sh\nchmod +x script.sh\n./script.sh\n"
  fs

/-- `FakeFilesystem::dir_exists`. -/
def dir_exists (fs : FakeFilesystem) (path : FsPath) : Bool :=
  fs.dirs.any (fun d => decide (d = path))

/-- The names contributed to `list_dir path` by subdirectories: immediate
child directories whose parent equals the queried path (the source also
excludes the path itself, relevant only for the parentless root). -/
def childDirNames (fs : FakeFilesystem) (path : FsPath) : List String :=
  fs.dirs.filterMap (fun d =>
    match parentOf d with
    | some par => if par = path ∧ d ≠ path then fileNameOf d else none
    | none => none)

/-- The names contributed to `list_dir path` by files: immediate child
files whose parent equals the queried path. -/
def childFileNames (fs : FakeFilesystem) (path : FsPath) : List String :=
  fs.files.filterMap (fun e =>
    match parentOf e.1 with
    | some par => if par = path then fileNameOf e.1 else none
    | none => none)

/-- `FakeFilesystem::list_dir`: gather child-directory names, then
child-file names, then `sort` and `dedup`. -/
def list_dir (fs : FakeFilesystem) (path : FsPath) : List String :=
  dedupAdj ((childDirNames fs path ++ childFileNames fs path).mergeSort
    (fun a b => a ≤ b))

/-- `FakeFilesystem::read_file` (`HashMap::get`). -/
def read_file (fs : FakeFilesystem) (path : FsPath) : Option String :=
  (fs.files.find? (fun e => decide (e.1 = path))).map (fun e => e.2)

/-- `FakeFilesystem::write_file` (`HashMap::insert`; never called by the
program outside tests). -/
def write_file (fs : FakeFilesystem) (path : FsPath) (content : String) :
    FakeFilesystem :=
  { fs with
    files := (path, content) :: fs.files.filter (fun e => decide (e.1 ≠ path)) }

end FakeFilesystem

example : FakeFilesystem.new.dir_exists (parsePath "/root") = true := by decide
example : FakeFilesystem.new.dir_exists (parsePath "/opt") = false := by decide
example :
    "passwd" ∈ FakeFilesystem.new.childFileNames (parsePath "/etc") := by decide

/-! ## Shell commands (`src/shell/commands.rs`) -/

/-- Per-session environment variables (`HashMap<String, String>`). -/
abbrev EnvMap := List (String × String)

/-- `HashMap::get` on the environment. -/
def envGet (env : EnvMap) (k : String) : Option String :=
  (env.find? (fun e => decide (e.1 = k))).map (fun e => e.2)

def cmd_pwd (current_dir : FsPath) : String :=
  renderPath current_dir ++ "\n"

def cmd_whoami (env_vars : EnvMap) : String :=
  (envGet env_vars "USER").getD "root" ++ "\n"

def cmd_id : String :=
  "uid=0(root) gid=0(root) groups=0(root)\n"

def cmd_uname (args : List String) : String :=
  if args.contains "-a" then
    "Linux honeypot 5.15.0-58-generic #64-Ubuntu SMP Thu Jan 5 11:43:13 UTC 2023 x86_64 x86_64 x86_64 GNU/Linux\n"
  else if args.contains "-r" then "5.15.0-58-generic\n"
  else if args.contains "-s" then "Linux\n"
  else if args.contains "-n" then "honeypot\n"
  else if args.contains "-m" then "x86_64\n"
  else "Linux\n"

def cmd_ls (args : List String) (filesystem : FakeFilesystem)
    (current_dir : FsPath) : String :=
  let show_hidden := args.contains "-a" || args.contains "-la" || args.contains "-al"
  let long_format := args.contains "-l" || args.contains "-la" || args.contains "-al"
  let entries := filesystem.list_dir current_dir
  if long_format then
    entries.foldl (fun output entry =>
      if !show_hidden && startsWithChar entry '.' then output
      else output ++ "drwxr-xr-x 2 root root 4096 Nov  9 10:30 " ++ entry ++ "\n")
      ""
  else
    let filtered := entries.filter (fun e => show_hidden || !startsWithChar e '.')
    if filtered.isEmpty then "" else String.intercalate "  " filtered ++ "\n"

def cmd_cd (args : List String) (current_dir : FsPath)
    (filesystem : FakeFilesystem) : String × FsPath :=
  match args with
  | [] => ("", parsePath "/root")
  | target :: _ =>
    let new_path :=
      if startsWithChar target '/' then parsePath target
      else if target = ".." then (parentOf current_dir).getD current_dir
      else if target = "." then current_dir
      else current_dir ++ parsePath target
    if filesystem.dir_exists new_path then ("", new_path)
    else ("cd: " ++ target ++ ": No such file or directory\n", current_dir)

def cmd_cat (args : List String) (filesystem : FakeFilesystem)
    (current_dir : FsPath) : String :=
  match args with
  | [] => "cat: missing operand\n"
  | a0 :: _ =>
    let path := if startsWithChar a0 '/' then parsePath a0
      else current_dir ++ parsePath a0
    match filesystem.read_file path with
    | some content => content ++ "\n"
    | none => "cat: " ++ a0 ++ ": No such file or directory\n"

def cmd_echo (args : List String) (env_vars : EnvMap) : String :=
  String.intercalate " " (args.map (fun arg =>
    if startsWithChar arg '$' then
      (envGet env_vars (String.mk (arg.data.drop 1))).getD ""
    else arg)) ++ "\n"

def cmd_env (env_vars : EnvMap) : String :=
  env_vars.foldl (fun output e => output ++ e.1 ++ "=" ++ e.2 ++ "\n") ""

def cmd_ps : String :=
  "  PID TTY          TIME CMD\n    1 pts/0    00:00:00 bash\n  234 pts/0    00:00:00 ps\n"

def cmd_ifconfig : String :=
  "eth0: flags=4163<UP,BROADCAST,RUNNING,MULTICAST>  mtu 1500\n        inet 192.168.1.100  netmask 255.255.255.0  broadcast 192.168.1.255\n        inet6 fe80::a00:27ff:fe4e:66a1  prefixlen 64  scopeid 0x20<link>\n        ether 08:00:27:4e:66:a1  txqueuelen 1000  (Ethernet)\n        RX packets 1234  bytes 567890 (567.8 KB)\n        RX errors 0  dropped 0  overruns 0  frame 0\n        TX packets 890  bytes 123456 (123.4 KB)\n        TX errors 0  dropped 0 overruns 0  carrier 0  collisions 0\n"

def cmd_ip (args : List String) : String :=
  if args.contains "addr" || args.contains "a" then
    "1: lo: <LOOPBACK,UP,LOWER_UP> mtu 65536 qdisc noqueue state UNKNOWN group default qlen 1000\n    link/loopback 00:00:00:00:00:00 brd 00:00:00:00:00:00\n    inet 127.0.0.1/8 scope host lo\n       valid_lft forever preferred_lft forever\n2: eth0: <BROADCAST,MULTICAST,UP,LOWER_UP> mtu 1500 qdisc fq_codel state UP group default qlen 1000\n    link/ether 08:00:27:4e:66:a1 brd ff:ff:ff:ff:ff:ff\n    inet 192.168.1.100/24 brd 192.168.1.255 scope global eth0\n       valid_lft forever preferred_lft forever\n"
  else
    "Usage: ip [ OPTIONS ] OBJECT \x7b COMMAND | help \x7d\n"

def cmd_netstat : String :=
  "Active Internet connections (servers and established)\nProto Recv-Q Send-Q Local Address           Foreign Address         State\ntcp        0      0 0.0.0.0:22              0.0.0.0:*               LISTEN\ntcp        0      0 192.168.1.100:22        192.168.1.50:54321      ESTABLISHED\n"

def cmd_wget (args : List String) : String :=
  if args.isEmpty then "wget: missing URL\n"
  else
    let url := args.getD (args.length - 1) ""
    "--2025-11-09 10:30:15--  " ++ url ++
      "\nResolving example.com... 93.184.216.34\nConnecting to example.com|93.184.216.34|:80... connected.\nHTTP request sent, awaiting response... 200 OK\nLength: 1234 (1.2K) [text/html]\nSaving to: \x27index.html\x27\n\nindex.html          100%[===================>]   1.20K  --.-KB/s    in 0s\n\n2025-11-09 10:30:15 (45.2 MB/s) - \x27index.html\x27 saved [1234/1234]\n"

def cmd_curl (args : List String) : String :=
  if args.isEmpty then "curl: try \x27curl --help\x27 for more information\n"
  else
    let url := args.getD (args.length - 1) ""
    "<!DOCTYPE html>\n<html>\n<head><title>Example</title></head>\n<body>Downloaded from "
      ++ url ++ "</body>\n</html>\n"

def cmd_chmod (args : List String) : String :=
  if args.length < 2 then "chmod: missing operand\n" else ""

def cmd_chown (args : List String) : String :=
  if args.length < 2 then "chown: missing operand\n" else ""

def cmd_rm (args : List String) : String :=
  if args.isEmpty then "rm: missing operand\n" else ""

def cmd_mkdir (args : List String) : String :=
  if args.isEmpty then "mkdir: missing operand\n" else ""

def cmd_touch (args : List String) : String :=
  if args.isEmpty then "touch: missing file operand\n" else ""

def cmd_cp (args : List String) : String :=
  if args.length < 2 then "cp: missing destination file operand\n" else ""

def cmd_mv (args : List String) : String :=
  if args.length < 2 then "mv: missing destination file operand\n" else ""

def cmd_history : String :=
  "    1  uname -a\n    2  whoami\n    3  ls -la\n    4  cat /etc/passwd\n    5  history\n"

def cmd_exit : String :=
  "logout\n"

/-- `execute_command`: dispatch table.  `&mut FakeFilesystem` and
`&mut PathBuf` become extra result components; `env_vars` is a shared
reference in the source and therefore cannot change. -/
def execute_command (cmd : String) (args : List String)
    (filesystem : FakeFilesystem) (current_dir : FsPath)
    (env_vars : EnvMap) : String × FakeFilesystem × FsPath :=
  match cmd with
  | "pwd" => (cmd_pwd current_dir, filesystem, current_dir)
  | "whoami" => (cmd_whoami env_vars, filesystem, current_dir)
  | "id" => (cmd_id, filesystem, current_dir)
  | "uname" => (cmd_uname args, filesystem, current_dir)
  | "ls" => (cmd_ls args filesystem current_dir, filesystem, current_dir)
  | "cd" =>
    let r := cmd_cd args current_dir filesystem
    (r.1, filesystem, r.2)
  | "cat" => (cmd_cat args filesystem current_dir, filesystem, current_dir)
  | "echo" => (cmd_echo args env_vars, filesystem, current_dir)
  | "env" => (cmd_env env_vars, filesystem, current_dir)
  | "ps" => (cmd_ps, filesystem, current_dir)
  | "ifconfig" => (cmd_ifconfig, filesystem, current_dir)
  | "ip" => (cmd_ip args, filesystem, current_dir)
  | "netstat" => (cmd_netstat, filesystem, current_dir)
  | "wget" => (cmd_wget args, filesystem, current_dir)
  | "curl" => (cmd_curl args, filesystem, current_dir)
  | "chmod" => (cmd_chmod args, filesystem, current_dir)
  | "chown" => (cmd_chown args, filesystem, current_dir)
  | "rm" => (cmd_rm args, filesystem, current_dir)
  | "mkdir" => (cmd_mkdir args, filesystem, current_dir)
  | "touch" => (cmd_touch args, filesystem, current_dir)
  | "cp" => (cmd_cp args, filesystem, current_dir)
  | "mv" => (cmd_mv args, filesystem, current_dir)
  | "history" => (cmd_history, filesystem, current_dir)
  | "exit" | "logout" => (cmd_exit, filesystem, current_dir)
  | _ => (cmd ++ ": command not found\n", filesystem, current_dir)

/-! ## Fake shell (`src/shell/mod.rs`) -/

/-- `FakeShell`: per-session shell state. -/
structure FakeShell where
  filesystem : FakeFilesystem
  current_dir : FsPath
  env_vars : EnvMap

namespace FakeShell

/-- `FakeShell::new`. -/
def new : FakeShell :=
  { filesystem := FakeFilesystem.new
    current_dir := parsePath "/root"
    env_vars := [("USER", "root"), ("HOME", "/root"),
      ("PATH", "/usr/local/sbin:/usr/local/bin:/usr/sbin:/usr/bin:/sbin:/bin"),
      ("SHELL", "/bin/bash")] }

/-- `FakeShell::execute`: trim, split on whitespace, dispatch. -/
def execute (shell : FakeShell) (command : String) : String × FakeShell :=
  let command := trimStr command
  if command = "" then ("", shell)
  else
    match splitWhitespaceStr command with
    | [] => ("", shell)
    | cmd :: args =>
      let r := execute_command cmd args shell.filesystem shell.current_dir
        shell.env_vars
      (r.1, { shell with filesystem := r.2.1, current_dir := r.2.2 })

end FakeShell

example : (FakeShell.new.execute "pwd").1 = "/root\n" := by decide
example : (FakeShell.new.execute "whoami").1 = "root\n" := by decide
example : (FakeShell.new.execute "cd /etc").2.current_dir = ["etc"] := by decide

/-! ## Rate limiter (`src/security/rate_limit.rs`) -/

/-- `ConnectionRecord`: per-IP count and window start (`Instant` as
seconds). -/
structure ConnectionRecord where
  count : Nat
  window_start : Nat
deriving DecidableEq

/-- Source IPs are opaque hashable keys; modelled as `Nat`. -/
abbrev Ip := Nat

/-- The guarded `HashMap<IpAddr, ConnectionRecord>`. -/
abbrev ConnTable := List (Ip × ConnectionRecord)

/-- `RateLimiter` configuration (the table is threaded explicitly). -/
structure RateLimiter where
  max_connections : Nat
  window_seconds : Nat

namespace RateLimiter

/-- The `retain` sweep: keep records with
`now.duration_since(window_start).as_secs() < window_seconds`. -/
def retainActive (rl : RateLimiter) (now : Nat) (t : ConnTable) : ConnTable :=
  t.filter (fun e => decide (now - e.2.window_start < rl.window_seconds))

/-- `HashMap::get` on the table. -/
def lookupIp (t : ConnTable) (ip : Ip) : Option ConnectionRecord :=
  (t.find? (fun e => decide (e.1 = ip))).map (fun e => e.2)

/-- In-place mutation through `get_mut`: replace the record stored for
`ip`. -/
def setRecord (t : ConnTable) (ip : Ip) (r : ConnectionRecord) : ConnTable :=
  t.map (fun e => if e.1 = ip then (ip, r) else e)

/-- `RateLimiter::check_and_record` at clock instant `now`.  The branch
for `elapsed >= window_seconds` is kept from the source even though the
preceding `retain` has already evicted such records. -/
def check_and_record (rl : RateLimiter) (t : ConnTable) (now : Nat)
    (ip : Ip) : Bool × ConnTable :=
  let t := rl.retainActive now t
  match lookupIp t ip with
  | some record =>
    let elapsed := now - record.window_start
    if rl.window_seconds ≤ elapsed then
      (true, setRecord t ip { count := 1, window_start := now })
    else if record.count < rl.max_connections then
      (true, setRecord t ip { record with count := record.count + 1 })
    else
      (false, t)
  | none =>
    (true, (ip, { count := 1, window_start := now }) :: t)

/-- `RateLimiter::get_count`. -/
def get_count (t : ConnTable) (ip : Ip) : Nat :=
  ((lookupIp t ip).map (fun r => r.count)).getD 0

/-- Run a sequence of `check_and_record` calls (each an `(ip, now)` pair)
against the initially empty table of `RateLimiter::new`. -/
def runCalls (rl : RateLimiter) (calls : List (Ip × Nat)) : ConnTable :=
  calls.foldl (fun t c => (rl.check_and_record t c.2 c.1).2) []

end RateLimiter

example :
    (RateLimiter.runCalls ⟨3, 60⟩ [(9, 0), (9, 1), (9, 2)]) =
      [(9, ⟨3, 0⟩)] := by decide
example :
    (RateLimiter.check_and_record ⟨3, 60⟩ [(9, ⟨3, 0⟩)] 3 9).1 = false := by
  decide
example :
    (RateLimiter.check_and_record ⟨3, 60⟩ [(9, ⟨3, 0⟩)] 60 9) =
      (true, [(9, ⟨1, 60⟩)]) := by decide

/-! ## SHA-256 (the `sha2` crate's `Sha256`, FIPS 180-4) and hex encoding -/

namespace SHA256

/-- 2^32, the word modulus. -/
def M32 : Nat := 4294967296

def add32 (a b : Nat) : Nat := (a + b) % M32

/-- Rotate a 32-bit word right by `n`. -/
def rotr32 (n x : Nat) : Nat := (x >>> n) ||| ((x % (2 ^ n)) <<< (32 - n))

def bigS0 (x : Nat) : Nat :=
  Nat.xor (Nat.xor (rotr32 2 x) (rotr32 13 x)) (rotr32 22 x)
def bigS1 (x : Nat) : Nat :=
  Nat.xor (Nat.xor (rotr32 6 x) (rotr32 11 x)) (rotr32 25 x)
def smallS0 (x : Nat) : Nat :=
  Nat.xor (Nat.xor (rotr32 7 x) (rotr32 18 x)) (x >>> 3)
def smallS1 (x : Nat) : Nat :=
  Nat.xor (Nat.xor (rotr32 17 x) (rotr32 19 x)) (x >>> 10)

def chFun (x y z : Nat) : Nat :=
  Nat.xor (Nat.land x y) (Nat.land (Nat.xor x (M32 - 1)) z)
def majFun (x y z : Nat) : Nat :=
  Nat.xor (Nat.xor (Nat.land x y) (Nat.land x z)) (Nat.land y z)

/-- Round constants (decimal rendering of the 32 fractional bits of the
cube roots of the first 64 primes). -/
def K : List Nat :=
  [1116352408, 1899447441, 3049323471, 3921009573, 961987163,
   1508970993, 2453635748, 2870763221, 3624381080, 310598401,
   607225278, 1426881987, 1925078388, 2162078206, 2614888103,
   3248222580, 3835390401, 4022224774, 264347078, 604807628,
   770255983, 1249150122, 1555081692, 1996064986, 2554220882,
   2821834349, 2952996808, 3210313671, 3336571891, 3584528711,
   113926993, 338241895, 666307205, 773529912, 1294757372,
   1396182291, 1695183700, 1986661051, 2177026350, 2456956037,
   2730485921, 2820302411, 3259730800, 3345764771, 3516065817,
   3600352804, 4094571909, 275423344, 430227734, 506948616,
   659060556, 883997877, 958139571, 1322822218, 1537002063,
   1747873779, 1955562222, 2024104815, 2227730452, 2361852424,
   2428436474, 2756734187, 3204031479, 3329325298]

/-- Initial hash value (decimal rendering of the 32 fractional bits of the
square roots of the first 8 primes). -/
def H0 : List Nat :=
  [1779033703, 3144134277, 1013904242, 2773480762,
   1359893119, 2600822924, 528734635, 1541459225]

/-- Big-endian byte decomposition of `x` into `n` bytes. -/
def bytesBE (n x : Nat) : List Nat :=
  (List.range n).map (fun i => (x >>> (8 * (n - 1 - i))) % 256)

/-- Pad the message per FIPS 180-4 (append `0x80`, zeros, 64-bit bit
length). -/
def padMessage (msg : List Nat) : List Nat :=
  let L := msg.length
  let k := (119 - (L % 64)) % 64
  msg ++ [0x80] ++ List.replicate k 0 ++ bytesBE 8 (L * 8)

/-- Split a byte list into 64-byte blocks; structural recursion on a fuel
bounded by the list length (each step strictly shortens the list). -/
def chunks64Aux : Nat → List Nat → List (List Nat)
  | 0, _ => []
  | _, [] => []
  | fuel + 1, a :: rest =>
    ((a :: rest).take 64) :: chunks64Aux fuel ((a :: rest).drop 64)

/-- Split the padded message into 64-byte blocks. -/
def chunks64 (l : List Nat) : List (List Nat) :=
  chunks64Aux l.length l

/-- The 16 initial schedule words of a block. -/
def initialWords (block : List Nat) : List Nat :=
  (List.range 16).map (fun j =>
    (block.getD (4 * j) 0) * 16777216 + (block.getD (4 * j + 1) 0) * 65536 +
      (block.getD (4 * j + 2) 0) * 256 + block.getD (4 * j + 3) 0)

/-- Extend the schedule from 16 to 64 words. -/
def schedule (block : List Nat) : List Nat :=
  (List.range 48).foldl (fun w _ =>
    let n := w.length
    w ++ [add32 (add32 (smallS1 (w.getD (n - 2) 0)) (w.getD (n - 7) 0))
      (add32 (smallS0 (w.getD (n - 15) 0)) (w.getD (n - 16) 0))])
    (initialWords block)

/-- One compression round. -/
def round (st : List Nat) (ki wi : Nat) : List Nat :=
  match st with
  | [a, b, c, d, e, f, g, h] =>
    let t1 := add32 (add32 (add32 h (bigS1 e)) (add32 (chFun e f g) ki)) wi
    let t2 := add32 (bigS0 a) (majFun a b c)
    [add32 t1 t2, a, b, c, add32 d t1, e, f, g]
  | _ => st

/-- Compress one 64-byte block into the hash state. -/
def compressBlock (hv : List Nat) (block : List Nat) : List Nat :=
  let w := schedule block
  let fin := (List.range 64).foldl
    (fun st i => round st (K.getD i 0) (w.getD i 0)) hv
  List.zipWith add32 hv fin

/-- SHA-256 digest (32 bytes) of a byte sequence. -/
def sha256 (msg : List Nat) : List Nat :=
  (((chunks64 (padMessage msg)).foldl compressBlock H0).map (bytesBE 4)).flatten

end SHA256

/-- One lowercase hex digit. -/
def hexChar (n : Nat) : Char :=
  "0123456789abcdef".data.getD n '0'

/-- `hex::encode`: lowercase hex of a byte sequence. -/
def hexEncode (bytes : List Nat) : String :=
  String.mk ((bytes.map (fun b => [hexChar (b / 16 % 16), hexChar (b % 16)])).flatten)

/-- The hex-encoded SHA-256 digest, as computed by `store_file`. -/
def sha256Hex (content : List Nat) : String :=
  hexEncode (SHA256.sha256 content)

/-! ## Content store (`src/capture/storage.rs`) -/

/-- `FileStorage`: the base directory. -/
structure FileStorage where
  base_path : String

/-- The real disk backing the store: a path-to-content map plus the log of
write events (`File::create` + `write_all`), used to count how often a
location is written. -/
structure Disk where
  filesOn : List (String × List Nat)
  writes : List String

/-- `Path::exists` on the modelled disk. -/
def Disk.pathExists (d : Disk) (p : String) : Bool :=
  d.filesOn.any (fun e => decide (e.1 = p))

/-- `File::create` + `write_all`: write `content` at `p` and log the write
event. -/
def Disk.writeAll (d : Disk) (p : String) (content : List Nat) : Disk :=
  { filesOn := (p, content) :: d.filesOn, writes := p :: d.writes }

/-- `PathBuf::join` on rendered storage paths. -/
def joinStoragePath (base name : String) : String :=
  base ++ "/" ++ name

namespace FileStorage

/-- `FileStorage::store_file`: hash, then write only if the
digest-named location does not already exist.  Returns the hex digest and
the updated disk. -/
def store_file (st : FileStorage) (d : Disk) (content : List Nat) :
    String × Disk :=
  let hash_hex := sha256Hex content
  let file_path := joinStoragePath st.base_path hash_hex
  if d.pathExists file_path then (hash_hex, d)
  else (hash_hex, d.writeAll file_path content)

/-- `FileStorage::get_path`. -/
def get_path (st : FileStorage) (hash : String) : String :=
  joinStoragePath st.base_path hash

end FileStorage

set_option maxRecDepth 10000 in
example :
    sha256Hex [] =
      "e3b0c44298fc1c149afbf4c8996fb92427ae41e4649b934ca495991b7852b855" := by
  decide
set_option maxRecDepth 10000 in
example :
    sha256Hex [0x61, 0x62, 0x63] =
      "ba7816bf8f01cfea414140de5dae2223b00361a396177a9cb410ff61f20015ad" := by
  decide

/-! ## Session capture (`src/capture/mod.rs`, `src/capture/logger.rs`) -/

/-- Timestamps (`DateTime<Utc>`) as abstract instants. -/
abbrev Timestamp := Nat

/-- `AuthAttempt`. -/
structure AuthAttempt where
  timestamp : Timestamp
  username : String
  password : String
  success : Bool
deriving DecidableEq

/-- `CommandExecution`. -/
structure CommandExecution where
  timestamp : Timestamp
  input : String
  output : String
deriving DecidableEq

/-- `FileDownload`. -/
structure FileDownload where
  timestamp : Timestamp
  sha256 : String
  url : String
  size_bytes : Nat
  path : String
deriving DecidableEq

/-- `SessionEvent`. -/
structure SessionEvent where
  timestamp : Timestamp
  event_type : String
  data : String
deriving DecidableEq

/-- `SessionLog` (`Uuid` as `Nat`). -/
structure SessionLog where
  session_id : Nat
  timestamp_start : Timestamp
  timestamp_end : Option Timestamp
  source_ip : Option String
  source_port : Option Nat
  auth_attempts : List AuthAttempt
  commands : List CommandExecution
  downloads : List FileDownload
  events : List SessionEvent
deriving DecidableEq

namespace SessionLog

/-- `SessionLog::new` (`Uuid::new_v4()` and `Utc::now()` become explicit
parameters). -/
def new (id : Nat) (now : Timestamp) (addr : Option (String × Nat)) :
    SessionLog :=
  { session_id := id
    timestamp_start := now
    timestamp_end := none
    source_ip := addr.map (fun a => a.1)
    source_port := addr.map (fun a => a.2)
    auth_attempts := []
    commands := []
    downloads := []
    events := [] }

/-- `SessionLog::end`: set the end timestamp to the current time
(unconditionally). -/
def end' (log : SessionLog) (now : Timestamp) : SessionLog :=
  { log with timestamp_end := some now }

/-- `SessionLog::add_auth`. -/
def add_auth (log : SessionLog) (username password : String)
    (success : Bool) (now : Timestamp) : SessionLog :=
  { log with auth_attempts := log.auth_attempts ++
      [{ timestamp := now, username := username, password := password,
         success := success }] }

/-- `SessionLog::add_command`. -/
def add_command (log : SessionLog) (input output : String)
    (now : Timestamp) : SessionLog :=
  { log with commands := log.commands ++
      [{ timestamp := now, input := input, output := output }] }

end SessionLog

/-- `SessionLogger::end_session`: set the end timestamp on the guarded
log, then return a clone of it.  First component: the log retained behind
the mutex; second: the returned clone. -/
def SessionLogger.end_session (log : SessionLog) (now : Timestamp) :
    SessionLog × SessionLog :=
  let log := log.end' now
  (log, log)

/-- `SessionLogger::log_auth`: append under the session lock. -/
def SessionLogger.log_auth (log : SessionLog) (username password : String)
    (success : Bool) (now : Timestamp) : SessionLog :=
  log.add_auth username password success now

/-! ## Connection handler (`src/server/handler.rs`, `src/server/session.rs`) -/

/-- `russh::server::Auth` outcomes used by the handler. -/
inductive Auth where
  | Accept : Auth
  | Reject : Auth
deriving DecidableEq

/-- `SessionInfo` (the fields `auth_password` touches). -/
structure SessionInfo where
  username : Option String
  password : Option String
  auth_attempts : Nat
deriving DecidableEq

/-- `Handler::auth_password`: record the credentials in `SessionInfo`,
log exactly one successful `AuthAttempt`, sleep (pure here), and accept.
Results: the decision, the updated session info and the updated log. -/
def Handler.auth_password (info : SessionInfo) (log : SessionLog)
    (user password : String) (now : Timestamp) :
    Auth × SessionInfo × SessionLog :=
  let info := { info with
    username := some user
    password := some password
    auth_attempts := info.auth_attempts + 1 }
  let log := SessionLogger.log_auth log user password true now
  (Auth.Accept, info, log)

/-! ## Claim C1 (corrected): finalize is NOT idempotent in the end
timestamp.  `SessionLog::end` assigns `Some(Utc::now())` unconditionally,
so a second `end_session` overwrites the previously set end timestamp. -/

/-- C1 counterexample: finalize a fresh session log at time 0, then again
at time 1; the second finalize changes the end timestamp (from `some 0` to
`some 1`), contradicting the claim that a second finalize does not change
the previously set end timestamp. -/
theorem second_finalize_overwrites_end_timestamp_cex :
    (SessionLogger.end_session
        (SessionLogger.end_session (SessionLog.new 0 0 none) 0).1 1).2.timestamp_end
      ≠ (SessionLogger.end_session (SessionLog.new 0 0 none) 0).2.timestamp_end := by
  decide

/-- C1 (amended): the first call to finalize sets the end timestamp to the
call time, and a second call overwrites it with the later call's time
(finalize is not idempotent); `end_session` returns the refinalized log
both as retained state and as the returned clone. -/
theorem finalize_sets_and_overwrites_end_timestamp (log : SessionLog)
    (t1 t2 : Timestamp) :
    (log.end' t1).timestamp_end = some t1
    ∧ ((log.end' t1).end' t2).timestamp_end = some t2
    ∧ SessionLogger.end_session log t1 = (log.end' t1, log.end' t1) :=
  ⟨rfl, rfl, rfl⟩

/-! ## Claim C3 (confirmed): storing byte-identical content twice yields
the same hex SHA-256 digest both times and writes the digest-named
location at most once (the second call skips the write). -/

/-- C3: for every storage state, disk state and byte sequence, two
consecutive `store_file` calls with the same content return the same
digest, the second call leaves the disk unchanged (the digest-named path
already exists), and at most one new write event is issued for that path
across both calls. -/
theorem store_file_same_digest_write_once (st : FileStorage) (d : Disk)
    (content : List Nat) :
    (st.store_file d content).1 =
      (st.store_file (st.store_file d content).2 content).1
    ∧ (st.store_file (st.store_file d content).2 content).2 =
        (st.store_file d content).2
    ∧ ((st.store_file d content).2.writes.countP
          (fun p => p = joinStoragePath st.base_path (sha256Hex content)) ≤
        d.writes.countP
          (fun p => p = joinStoragePath st.base_path (sha256Hex content)) + 1) := by
  have hfst : ∀ dd : Disk, (st.store_file dd content).1 = sha256Hex content := by
    intro dd
    unfold FileStorage.store_file
    simp only []
    split <;> rfl
  by_cases h : d.pathExists (joinStoragePath st.base_path (sha256Hex content))
  · refine ⟨?_, ?_, ?_⟩
    · rw [hfst, hfst]
    · simp [FileStorage.store_file, h]
    · simp [FileStorage.store_file, h]
  · have hex2 :
        (d.writeAll (joinStoragePath st.base_path (sha256Hex content))
          content).pathExists
            (joinStoragePath st.base_path (sha256Hex content)) = true := by
      simp [Disk.pathExists, Disk.writeAll]
    refine ⟨?_, ?_, ?_⟩
    · rw [hfst, hfst]
    · simp [FileStorage.store_file, h, hex2]
    · simp [FileStorage.store_file, h, Disk.writeAll, List.countP_cons]

/-! ## Claim C4 (confirmed): password authentication always accepts and
appends exactly one successful `AuthAttempt` before accepting. -/

/-- C4: for every session state, log, username/password pair and time,
`auth_password` returns `Accept` and appends exactly one `AuthAttempt`
with `success = true` (the append happens before the accept is
returned). -/
theorem auth_password_always_accepts_records_one_attempt
    (info : SessionInfo) (log : SessionLog) (user password : String)
    (now : Timestamp) :
    (Handler.auth_password info log user password now).1 = Auth.Accept
    ∧ (Handler.auth_password info log user password now).2.2.auth_attempts =
        log.auth_attempts ++
          [{ timestamp := now, username := user, password := password,
             success := true }] :=
  ⟨rfl, rfl⟩

/-! ## Claim C6 (confirmed): `cd` resolution and the frame on failure -/

/-- The path `cmd_cd` resolves a target against the current working
directory: absolute paths stand alone; `..` goes to the parent (or stays
at the root); `.` stays; anything else is joined onto the cwd. -/
def cdResolve (target : String) (current_dir : FsPath) : FsPath :=
  if startsWithChar target '/' then parsePath target
  else if target = ".." then (parentOf current_dir).getD current_dir
  else if target = "." then current_dir
  else current_dir ++ parsePath target

/-- C6: for every shell state and `cd` argument, the target is resolved
per `cdResolve` (`.`, `..`, absolute, relative join); when the resolved
path is a directory of the fake filesystem the cwd becomes that path with
empty output, otherwise the cwd is unchanged and the error line
`cd: target: No such file or directory` is returned. -/
theorem cmd_cd_resolves_and_checks_directory (fs : FakeFilesystem)
    (cwd : FsPath) (target : String) (rest : List String) :
    (fs.dir_exists (cdResolve target cwd) = true →
      cmd_cd (target :: rest) cwd fs = ("", cdResolve target cwd))
    ∧ (fs.dir_exists (cdResolve target cwd) = false →
      cmd_cd (target :: rest) cwd fs =
        ("cd: " ++ target ++ ": No such file or directory\n", cwd))
    ∧ cdResolve "." cwd = cwd
    ∧ cdResolve ".." cwd = (parentOf cwd).getD cwd
    ∧ (startsWithChar target '/' = true →
        cdResolve target cwd = parsePath target)
    ∧ (startsWithChar target '/' = false → target ≠ ".." → target ≠ "." →
        cdResolve target cwd = cwd ++ parsePath target) := by
  have hdot : startsWithChar "." '/' = false := by decide
  have hdots : startsWithChar ".." '/' = false := by decide
  refine ⟨?_, ?_, ?_, ?_, ?_, ?_⟩
  · intro h
    simp [cmd_cd, cdResolve] at h ⊢
    simp [h]
  · intro h
    simp [cmd_cd, cdResolve] at h ⊢
    simp [h]
  · simp [cdResolve, hdot]
  · simp [cdResolve, hdots]
  · intro h
    simp [cdResolve, h]
  · intro h h2 h3
    simp [cdResolve, h, h2, h3]

/-- C6 witness: `cd /etc` from `/root` succeeds and sets the cwd;
`cd /nope` fails, returns the error line and leaves the cwd at
`/root`. -/
theorem cmd_cd_witness :
    cmd_cd ["/etc"] (parsePath "/root") FakeFilesystem.new = ("", ["etc"])
    ∧ cmd_cd ["/nope"] (parsePath "/root") FakeFilesystem.new =
        ("cd: /nope: No such file or directory\n", parsePath "/root") := by
  constructor
  · have h :=
      (cmd_cd_resolves_and_checks_directory FakeFilesystem.new
        (parsePath "/root") "/etc" []).1 (by decide)
    exact h.trans (by decide)
  · exact
      (cmd_cd_resolves_and_checks_directory FakeFilesystem.new
        (parsePath "/root") "/nope" []).2.1 (by decide)

/-! ## Claim C7 (confirmed): mutating commands check arity only and change
no state -/

/-- Helper: if dispatching the parsed command leaves filesystem and cwd
unchanged, then `FakeShell::execute` returns the shell state unchanged
(the environment is behind a shared reference and cannot change). -/
theorem execute_frame_of_dispatch (shell : FakeShell) (line : String)
    (h : ∀ cmd args, splitWhitespaceStr (trimStr line) = cmd :: args →
      (execute_command cmd args shell.filesystem shell.current_dir
        shell.env_vars).2 = (shell.filesystem, shell.current_dir)) :
    (shell.execute line).2 = shell := by
  unfold FakeShell.execute
  by_cases h0 : trimStr line = ""
  · simp [h0]
  · cases hsp : splitWhitespaceStr (trimStr line) with
    | nil => simp [h0, hsp]
    | cons cmd args =>
      have hfr := h cmd args hsp
      have h1 : (execute_command cmd args shell.filesystem shell.current_dir
          shell.env_vars).2.1 = shell.filesystem := by rw [hfr]
      have h2 : (execute_command cmd args shell.filesystem shell.current_dir
          shell.env_vars).2.2 = shell.current_dir := by rw [hfr]
      simp [h0, hsp, h1, h2]

/-- C7: each mutating command (`chmod`, `chown`, `rm`, `mkdir`, `touch`,
`cp`, `mv`) leaves the filesystem and cwd unchanged through the
dispatcher, produces exactly the arity-determined output (empty on
success, a missing-operand line otherwise), and a full shell `execute` of
any such command line returns the shell state (filesystem, cwd,
environment) unchanged. -/
theorem mutating_commands_arity_only_no_state_change (args : List String)
    (fs : FakeFilesystem) (cwd : FsPath) (env : EnvMap) :
    execute_command "chmod" args fs cwd env = (cmd_chmod args, fs, cwd)
    ∧ execute_command "chown" args fs cwd env = (cmd_chown args, fs, cwd)
    ∧ execute_command "rm" args fs cwd env = (cmd_rm args, fs, cwd)
    ∧ execute_command "mkdir" args fs cwd env = (cmd_mkdir args, fs, cwd)
    ∧ execute_command "touch" args fs cwd env = (cmd_touch args, fs, cwd)
    ∧ execute_command "cp" args fs cwd env = (cmd_cp args, fs, cwd)
    ∧ execute_command "mv" args fs cwd env = (cmd_mv args, fs, cwd)
    ∧ cmd_chmod args = (if args.length < 2 then "chmod: missing operand\n" else "")
    ∧ cmd_chown args = (if args.length < 2 then "chown: missing operand\n" else "")
    ∧ cmd_rm args = (if args.isEmpty then "rm: missing operand\n" else "")
    ∧ cmd_mkdir args = (if args.isEmpty then "mkdir: missing operand\n" else "")
    ∧ cmd_touch args = (if args.isEmpty then "touch: missing file operand\n" else "")
    ∧ cmd_cp args = (if args.length < 2 then "cp: missing destination file operand\n" else "")
    ∧ cmd_mv args = (if args.length < 2 then "mv: missing destination file operand\n" else "")
    ∧ (∀ (shell : FakeShell) (line : String),
        (splitWhitespaceStr (trimStr line)).headD "" ∈
          (["chmod", "chown", "rm", "mkdir", "touch", "cp", "mv"] : List String) →
        (shell.execute line).2 = shell) := by
  refine ⟨rfl, rfl, rfl, rfl, rfl, rfl, rfl, rfl, rfl, rfl, rfl, rfl, rfl, rfl, ?_⟩
  intro shell line hmem
  apply execute_frame_of_dispatch
  intro cmd cargs hsp
  rw [hsp] at hmem
  simp only [List.headD_cons] at hmem
  fin_cases hmem <;> rfl

/-- C7 witness: executing `rm -rf /tmp` on a fresh shell leaves the whole
shell state unchanged (and the dispatcher facts are instantiated at empty
arguments). -/
theorem mutating_commands_witness :
    (FakeShell.new.execute "rm -rf /tmp").2 = FakeShell.new := by
  obtain ⟨-, -, -, -, -, -, -, -, -, -, -, -, -, -, hframe⟩ :=
    mutating_commands_arity_only_no_state_change [] FakeFilesystem.new
      (parsePath "/root") []
  exact hframe FakeShell.new "rm -rf /tmp" (by decide)

/-! ## Claim C10 (confirmed): `ls` ignores path operands -/

/-- The `ls` output as a function of only the two flag bits and the
listing of the current working directory — the shape the claim asserts:
path operands cannot influence the result. -/
def lsRender (show_hidden long_format : Bool) (entries : List String) :
    String :=
  if long_format then
    entries.foldl (fun output entry =>
      if !show_hidden && startsWithChar entry '.' then output
      else output ++ "drwxr-xr-x 2 root root 4096 Nov  9 10:30 " ++ entry ++ "\n")
      ""
  else
    let filtered := entries.filter (fun e => show_hidden || !startsWithChar e '.')
    if filtered.isEmpty then "" else String.intercalate "  " filtered ++ "\n"

/-- `cmd_ls` factors through the flag bits and the cwd listing. -/
theorem cmd_ls_eq_lsRender (args : List String) (fs : FakeFilesystem)
    (cwd : FsPath) :
    cmd_ls args fs cwd =
      lsRender (args.contains "-a" || args.contains "-la" || args.contains "-al")
        (args.contains "-l" || args.contains "-la" || args.contains "-al")
        (fs.list_dir cwd) := rfl

/-- C10: the `ls` output is a function of only the flag bits (`-a`, `-l`,
`-la`, `-al`) and the listing of the current working directory, so path
operands are ignored; concretely, `ls /etc` with cwd `/root` produces the
same output as plain `ls` (the listing of `/root`, not of `/etc`). -/
theorem ls_ignores_path_operands (args : List String) (fs : FakeFilesystem)
    (cwd : FsPath) :
    cmd_ls args fs cwd =
      lsRender (args.contains "-a" || args.contains "-la" || args.contains "-al")
        (args.contains "-l" || args.contains "-la" || args.contains "-al")
        (fs.list_dir cwd)
    ∧ (FakeShell.new.execute "ls /etc").1 = (FakeShell.new.execute "ls").1 :=
  ⟨cmd_ls_eq_lsRender args fs cwd, rfl⟩

/-! ## Claims C9 and C8: `list_dir` characterisation and unknown paths -/

/-- `list_dir` output is strictly sorted (sort + adjacent dedup). -/
theorem list_dir_sorted (fs : FakeFilesystem) (p : FsPath) :
    (fs.list_dir p).Sorted (· < ·) := by
  unfold FakeFilesystem.list_dir
  apply sorted_lt_dedupAdj
  apply List.sorted_mergeSort'

/-- Membership in `list_dir` is exactly membership in the union of child
directory names and child file names. -/
theorem mem_list_dir (fs : FakeFilesystem) (p : FsPath) (s : String) :
    s ∈ fs.list_dir p ↔
      s ∈ FakeFilesystem.childDirNames fs p ∨
        s ∈ FakeFilesystem.childFileNames fs p := by
  unfold FakeFilesystem.list_dir
  rw [mem_dedupAdj, (List.mergeSort_perm _ _).mem_iff, List.mem_append]

/-- C9: for every filesystem state and queried path, `list_dir` is
strictly sorted (hence lexicographically sorted with no duplicates) and
contains exactly the union of immediate child directory names and
immediate child file names whose parent equals the queried path; on the
freshly constructed filesystem, `list_dir "/"` contains `root`, `etc` and
`tmp`. -/
theorem list_dir_sorted_dedup_union (fs : FakeFilesystem) (p : FsPath) :
    (fs.list_dir p).Sorted (· < ·)
    ∧ (fs.list_dir p).Nodup
    ∧ (∀ s, s ∈ fs.list_dir p ↔
        s ∈ FakeFilesystem.childDirNames fs p ∨
          s ∈ FakeFilesystem.childFileNames fs p)
    ∧ "root" ∈ FakeFilesystem.new.list_dir (parsePath "/")
    ∧ "etc" ∈ FakeFilesystem.new.list_dir (parsePath "/")
    ∧ "tmp" ∈ FakeFilesystem.new.list_dir (parsePath "/") := by
  have hsorted := list_dir_sorted fs p
  refine ⟨hsorted, hsorted.nodup, fun s => mem_list_dir fs p s, ?_, ?_, ?_⟩
  · rw [mem_list_dir]
    left
    decide
  · rw [mem_list_dir]
    left
    decide
  · rw [mem_list_dir]
    left
    decide

/-- C8: on the filesystem as constructed (the program never calls
`write_file`), a path present neither among the directories nor among the
file keys yields `read_file = none`, `dir_exists = false` and an empty
`list_dir`; all three are total functions, so no error is ever
signalled. -/
theorem unknown_paths_absent_no_error (p : FsPath)
    (h1 : p ∉ FakeFilesystem.new.dirs)
    (h2 : p ∉ FakeFilesystem.new.files.map Prod.fst) :
    FakeFilesystem.new.read_file p = none
    ∧ FakeFilesystem.new.dir_exists p = false
    ∧ FakeFilesystem.new.list_dir p = [] := by
  have hroot : ¬(([] : FsPath) = p) := by
    intro h
    exact h1 (h ▸ (by decide : ([] : FsPath) ∈ FakeFilesystem.new.dirs))
  have hetc : ¬((["etc"] : FsPath) = p) := by
    intro h
    exact h1 (h ▸ (by decide : (["etc"] : FsPath) ∈ FakeFilesystem.new.dirs))
  have hrootd : ¬((["root"] : FsPath) = p) := by
    intro h
    exact h1 (h ▸ (by decide : (["root"] : FsPath) ∈ FakeFilesystem.new.dirs))
  refine ⟨?_, ?_, ?_⟩
  · have hnone : FakeFilesystem.new.files.find? (fun e => decide (e.1 = p)) = none := by
      rw [List.find?_eq_none]
      intro e he heq
      rw [decide_eq_true_eq] at heq
      exact h2 (heq ▸ List.mem_map_of_mem Prod.fst he)
    simp [FakeFilesystem.read_file, hnone]
  · rw [FakeFilesystem.dir_exists, List.any_eq_false]
    intro d hd heq
    rw [decide_eq_true_eq] at heq
    exact h1 (heq ▸ hd)
  · rw [List.eq_nil_iff_forall_not_mem]
    intro s hs
    rw [mem_list_dir] at hs
    rcases hs with hs | hs
    · obtain ⟨d, hd, hf⟩ := List.mem_filterMap.mp hs
      have hpar : parentOf d = some p := by
        cases hp : parentOf d with
        | none => rw [hp] at hf; exact absurd hf (by simp)
        | some par =>
          rw [hp] at hf
          have hf2 : (if par = p ∧ d ≠ p then fileNameOf d else none) = some s := hf
          by_cases hc : par = p ∧ d ≠ p
          · rw [hc.1]
          · rw [if_neg hc] at hf2
            exact absurd hf2 (by simp)
      have hd9 : d ∈ ([[], ["root"], ["home"], ["etc"], ["var"], ["tmp"],
          ["usr"], ["bin"], ["sbin"]] : List FsPath) := by
        have hde : FakeFilesystem.new.dirs = [[], ["root"], ["home"], ["etc"],
            ["var"], ["tmp"], ["usr"], ["bin"], ["sbin"]] := by decide
        rw [hde] at hd
        exact hd
      simp only [List.mem_cons, List.not_mem_nil, or_false] at hd9
      rcases hd9 with h | h | h | h | h | h | h | h | h <;> rw [h] at hpar
      · exact Option.noConfusion hpar
      all_goals exact hroot (Option.some.inj hpar)
    · obtain ⟨e, he, hf⟩ := List.mem_filterMap.mp hs
      have hpar : parentOf e.1 = some p := by
        cases hp : parentOf e.1 with
        | none => rw [hp] at hf; exact absurd hf (by simp)
        | some par =>
          rw [hp] at hf
          have hf2 : (if par = p then fileNameOf e.1 else none) = some s := hf
          by_cases hc : par = p
          · rw [hc]
          · rw [if_neg hc] at hf2
            exact absurd hf2 (by simp)
      have hq : e.1 ∈ FakeFilesystem.new.files.map Prod.fst :=
        List.mem_map_of_mem Prod.fst he
      have hfe : FakeFilesystem.new.files.map Prod.fst =
          ([["etc", "passwd"], ["etc", "shadow"], ["etc", "hosts"],
            ["etc", "hostname"], ["etc", "os-release"], ["root", ".bashrc"],
            ["root", ".bash_history"]] : List FsPath) := by decide
      rw [hfe] at hq
      simp only [List.mem_cons, List.not_mem_nil, or_false] at hq
      rcases hq with h | h | h | h | h | h | h <;> rw [h] at hpar
      · exact hetc (Option.some.inj hpar)
      · exact hetc (Option.some.inj hpar)
      · exact hetc (Option.some.inj hpar)
      · exact hetc (Option.some.inj hpar)
      · exact hetc (Option.some.inj hpar)
      · exact hrootd (Option.some.inj hpar)
      · exact hrootd (Option.some.inj hpar)

/-- C8 witness: the absent path `/opt` yields `none`, `false` and the
empty listing on the fresh filesystem. -/
theorem unknown_paths_witness :
    FakeFilesystem.new.read_file (parsePath "/opt") = none
    ∧ FakeFilesystem.new.dir_exists (parsePath "/opt") = false
    ∧ FakeFilesystem.new.list_dir (parsePath "/opt") = [] :=
  unknown_paths_absent_no_error (parsePath "/opt") (by decide) (by decide)

/-! ## Rate limiter lemmas (towards claims C2 and C5) -/

namespace RateLimiter

theorem lookupIp_some_mem {t : ConnTable} {ip : Ip} {r : ConnectionRecord}
    (h : lookupIp t ip = some r) : (ip, r) ∈ t := by
  unfold lookupIp at h
  cases hf : t.find? (fun e => decide (e.1 = ip)) with
  | none => rw [hf] at h; exact absurd h (by simp)
  | some e =>
    rw [hf] at h
    simp only [Option.map_some'] at h
    have hmem := List.mem_of_find?_eq_some hf
    have hpred := List.find?_some hf
    rw [decide_eq_true_eq] at hpred
    have he : e = (ip, r) := Prod.ext hpred (Option.some.inj h)
    rw [← he]
    exact hmem

theorem lookupIp_cons_self {t : ConnTable} {ip : Ip} {r : ConnectionRecord} :
    lookupIp ((ip, r) :: t) ip = some r := by
  simp [lookupIp, List.find?_cons]

theorem lookupIp_setRecord {t : ConnTable} {ip : Ip} {r r' : ConnectionRecord}
    (h : lookupIp t ip = some r) :
    lookupIp (setRecord t ip r') ip = some r' := by
  induction t with
  | nil => exact absurd h (by simp [lookupIp])
  | cons e es ih =>
    by_cases he : e.1 = ip
    · simp [lookupIp, setRecord, List.find?_cons, he]
    · have h' : lookupIp es ip = some r := by
        simpa [lookupIp, List.find?_cons, he] using h
      have hrec := ih h'
      simpa [lookupIp, setRecord, List.find?_cons, he] using hrec

theorem nodup_keys_unique {t : ConnTable} (hnd : (t.map Prod.fst).Nodup)
    {a b : Ip × ConnectionRecord} (ha : a ∈ t) (hb : b ∈ t)
    (hab : a.1 = b.1) : a = b := by
  induction t with
  | nil => cases ha
  | cons e es ih =>
    rw [List.map_cons, List.nodup_cons] at hnd
    obtain ⟨hne, hnd'⟩ := hnd
    rcases List.mem_cons.mp ha with ha1 | ha1 <;>
      rcases List.mem_cons.mp hb with hb1 | hb1
    · rw [ha1, hb1]
    · exfalso
      apply hne
      rw [ha1] at hab
      rw [hab]
      exact List.mem_map_of_mem Prod.fst hb1
    · exfalso
      apply hne
      rw [hb1] at hab
      rw [← hab]
      exact List.mem_map_of_mem Prod.fst ha1
    · exact ih hnd' ha1 hb1

theorem mem_retain_sub {rl : RateLimiter} {now : Nat} {t : ConnTable}
    {e : Ip × ConnectionRecord} (h : e ∈ rl.retainActive now t) :
    e ∈ t ∧ now - e.2.window_start < rl.window_seconds := by
  have := List.mem_filter.mp h
  exact ⟨this.1, of_decide_eq_true this.2⟩

/-- Behaviour when the retained table has no record for `ip`: admit and
insert a fresh record with count 1. -/
theorem check_none_case (rl : RateLimiter) (t : ConnTable) (now : Nat)
    (ip : Ip) (h : lookupIp (rl.retainActive now t) ip = none) :
    rl.check_and_record t now ip =
      (true, (ip, ⟨1, now⟩) :: rl.retainActive now t) := by
  simp only [check_and_record, h]

/-- Behaviour for an in-window record below the maximum: admit and
increment. -/
theorem check_incr_case (rl : RateLimiter) (t : ConnTable) (now : Nat)
    (ip : Ip) (r : ConnectionRecord)
    (h : lookupIp (rl.retainActive now t) ip = some r)
    (hc : r.count < rl.max_connections) :
    rl.check_and_record t now ip =
      (true, setRecord (rl.retainActive now t) ip
        ⟨r.count + 1, r.window_start⟩) := by
  have hlt : now - r.window_start < rl.window_seconds :=
    (mem_retain_sub (lookupIp_some_mem h)).2
  simp only [check_and_record, h]
  rw [if_neg (not_le.mpr hlt), if_pos hc]

/-- Behaviour for an in-window record at or above the maximum: reject,
no mutation beyond the eviction sweep. -/
theorem check_full_case (rl : RateLimiter) (t : ConnTable) (now : Nat)
    (ip : Ip) (r : ConnectionRecord)
    (h : lookupIp (rl.retainActive now t) ip = some r)
    (hc : rl.max_connections ≤ r.count) :
    rl.check_and_record t now ip = (false, rl.retainActive now t) := by
  have hlt : now - r.window_start < rl.window_seconds :=
    (mem_retain_sub (lookupIp_some_mem h)).2
  simp only [check_and_record, h]
  rw [if_neg (not_le.mpr hlt), if_neg (not_lt.mpr hc)]

/-- Every record in the table after a call has count at most
`max max_connections 1`. -/
theorem check_count_le (rl : RateLimiter) (t : ConnTable) (now : Nat)
    (ip : Ip) (hinv : ∀ e ∈ t, e.2.count ≤ max rl.max_connections 1) :
    ∀ e ∈ (rl.check_and_record t now ip).2,
      e.2.count ≤ max rl.max_connections 1 := by
  intro e he
  have hretain : ∀ x ∈ rl.retainActive now t,
      x.2.count ≤ max rl.max_connections 1 :=
    fun x hx => hinv x (mem_retain_sub hx).1
  cases hl : lookupIp (rl.retainActive now t) ip with
  | none =>
    rw [check_none_case rl t now ip hl] at he
    rcases List.mem_cons.mp he with h | h
    · rw [h]
      exact le_max_right _ _
    · exact hretain e h
  | some r =>
    have hlt : now - r.window_start < rl.window_seconds :=
      (mem_retain_sub (lookupIp_some_mem hl)).2
    by_cases hc : r.count < rl.max_connections
    · rw [check_incr_case rl t now ip r hl hc] at he
      simp only [setRecord] at he
      rcases List.mem_map.mp he with ⟨x, hx, hxe⟩
      by_cases hxi : x.1 = ip
      · rw [if_pos hxi] at hxe
        rw [← hxe]
        exact le_trans (Nat.succ_le_of_lt hc) (le_max_left _ _)
      · rw [if_neg hxi] at hxe
        rw [← hxe]
        exact hretain x hx
    · rw [check_full_case rl t now ip r hl (not_lt.mp hc)] at he
      exact hretain e he

/-- The count bound is an invariant of any call sequence from the empty
table. -/
theorem runCalls_count_le (rl : RateLimiter) (calls : List (Ip × Nat)) :
    ∀ e ∈ rl.runCalls calls, e.2.count ≤ max rl.max_connections 1 := by
  unfold runCalls
  suffices h : ∀ (t : ConnTable),
      (∀ e ∈ t, e.2.count ≤ max rl.max_connections 1) →
      ∀ e ∈ calls.foldl (fun t c => (rl.check_and_record t c.2 c.1).2) t,
        e.2.count ≤ max rl.max_connections 1 by
    exact h [] (by simp)
  induction calls with
  | nil =>
    intro t ht
    simpa using ht
  | cons c cs ih =>
    intro t ht
    rw [List.foldl_cons]
    exact ih _ (check_count_le rl t c.2 c.1 ht)

/-- Every record left by a call is either still inside its window at the
call's time or was stamped with the call's time itself. -/
theorem check_fresh_or_active (rl : RateLimiter) (t : ConnTable) (now : Nat)
    (ip : Ip) :
    ∀ e ∈ (rl.check_and_record t now ip).2,
      now - e.2.window_start < rl.window_seconds ∨ e.2.window_start = now := by
  intro e he
  cases hl : lookupIp (rl.retainActive now t) ip with
  | none =>
    rw [check_none_case rl t now ip hl] at he
    rcases List.mem_cons.mp he with h | h
    · rw [h]
      exact Or.inr rfl
    · exact Or.inl (mem_retain_sub h).2
  | some r =>
    have hlt : now - r.window_start < rl.window_seconds :=
      (mem_retain_sub (lookupIp_some_mem hl)).2
    by_cases hc : r.count < rl.max_connections
    · rw [check_incr_case rl t now ip r hl hc] at he
      simp only [setRecord] at he
      rcases List.mem_map.mp he with ⟨x, hx, hxe⟩
      by_cases hxi : x.1 = ip
      · rw [if_pos hxi] at hxe
        rw [← hxe]
        exact Or.inl hlt
      · rw [if_neg hxi] at hxe
        rw [← hxe]
        exact Or.inl (mem_retain_sub hx).2
    · rw [check_full_case rl t now ip r hl (not_lt.mp hc)] at he
      exact Or.inl (mem_retain_sub he).2

end RateLimiter

/-! ## Claim C2 (confirmed): bounded counts and branch behaviour -/

/-- C2: in-window admissions increment only when `count < max`; at the
maximum the call returns `false` without touching the count; an unseen IP
is always admitted with count 1 (also when `max_connections = 0`); and
over any call sequence from the empty table, `get_count` never exceeds
`max max_connections 1` — in particular it never exceeds the configured
maximum whenever that maximum is at least 1, so admitted connections never
push the reported count past the configured maximum. -/
theorem rate_limiter_count_never_exceeds_admitted_max (rl : RateLimiter)
    (calls : List (Ip × Nat)) (ip : Ip) (t : ConnTable) (now : Nat) :
    RateLimiter.get_count (rl.runCalls calls) ip ≤ max rl.max_connections 1
    ∧ (1 ≤ rl.max_connections →
        RateLimiter.get_count (rl.runCalls calls) ip ≤ rl.max_connections)
    ∧ (∀ r : ConnectionRecord,
        RateLimiter.lookupIp (rl.retainActive now t) ip = some r →
        (r.count < rl.max_connections →
          rl.check_and_record t now ip =
            (true, RateLimiter.setRecord (rl.retainActive now t) ip
              ⟨r.count + 1, r.window_start⟩)
          ∧ RateLimiter.get_count (rl.check_and_record t now ip).2 ip =
              r.count + 1)
        ∧ (rl.max_connections ≤ r.count →
          rl.check_and_record t now ip = (false, rl.retainActive now t)
          ∧ RateLimiter.get_count (rl.check_and_record t now ip).2 ip =
              r.count))
    ∧ (RateLimiter.lookupIp (rl.retainActive now t) ip = none →
        rl.check_and_record t now ip =
          (true, (ip, ⟨1, now⟩) :: rl.retainActive now t)
        ∧ RateLimiter.get_count (rl.check_and_record t now ip).2 ip = 1) := by
  have hbound :
      RateLimiter.get_count (rl.runCalls calls) ip ≤ max rl.max_connections 1 := by
    unfold RateLimiter.get_count
    cases hl : RateLimiter.lookupIp (rl.runCalls calls) ip with
    | none => simp
    | some r =>
      have hmem := RateLimiter.lookupIp_some_mem hl
      have := RateLimiter.runCalls_count_le rl calls _ hmem
      simpa using this
  refine ⟨hbound, ?_, ?_, ?_⟩
  · intro hmax
    calc RateLimiter.get_count (rl.runCalls calls) ip
        ≤ max rl.max_connections 1 := hbound
      _ = rl.max_connections := Nat.max_eq_left hmax
  · intro r hl
    constructor
    · intro hc
      have heq := RateLimiter.check_incr_case rl t now ip r hl hc
      refine ⟨heq, ?_⟩
      rw [heq]
      unfold RateLimiter.get_count
      rw [RateLimiter.lookupIp_setRecord hl]
      rfl
    · intro hc
      have heq := RateLimiter.check_full_case rl t now ip r hl hc
      refine ⟨heq, ?_⟩
      rw [heq]
      unfold RateLimiter.get_count
      rw [hl]
      rfl
  · intro hl
    have heq := RateLimiter.check_none_case rl t now ip hl
    refine ⟨heq, ?_⟩
    rw [heq]
    unfold RateLimiter.get_count
    rw [RateLimiter.lookupIp_cons_self]
    rfl

/-- C2 witness: with `max = 3`, `window = 60`, an IP seen once in-window is
admitted and its count goes to 2; the count reported after two admitted
calls stays within the maximum. -/
theorem rate_limiter_count_bound_witness :
    RateLimiter.check_and_record ⟨3, 60⟩ [(7, ⟨1, 0⟩)] 10 7 =
      (true, [(7, ⟨2, 0⟩)])
    ∧ RateLimiter.get_count (RateLimiter.runCalls ⟨3, 60⟩ [(7, 0), (7, 1)]) 7 ≤ 3 := by
  have h := rate_limiter_count_never_exceeds_admitted_max ⟨3, 60⟩
    [(7, 0), (7, 1)] 7 [(7, ⟨1, 0⟩)] 10
  constructor
  · have h3 := (h.2.2.1 ⟨1, 0⟩ (by decide)).1 (by decide)
    exact h3.1.trans (by decide)
  · exact h.2.1 (by decide)

/-! ## Claim C5 (corrected): expiry resets, but with a zero-length window
the record written by the call itself is already expired -/

/-- C5 counterexample: with `window_seconds = 0`, after the single call at
time 0 the table holds a record whose window age (0) is not below the
window length (0) — i.e. an expired record — contradicting the claim that
the table only ever holds records whose window has not yet expired at the
time of the most recent call. -/
theorem rate_limiter_zero_window_keeps_expired_record_cex :
    ¬ (∀ e ∈ RateLimiter.runCalls ⟨5, 0⟩ [(1, 0)],
        0 - e.2.window_start < (RateLimiter.mk 5 0).window_seconds) := by
  decide

/-- C5 (amended): a previously recorded IP whose window age has reached
the window length is admitted again with its count reset to 1 and a fresh
window start (the expired record is lazily evicted and reinserted), and
after any call every record in the table is either still inside its window
at that call's time or was stamped with that call's time itself; when the
configured window length is positive the latter implies the former, so the
table then holds no expired records — the unqualified claim fails only in
the degenerate `window_seconds = 0` configuration. -/
theorem rate_limiter_expired_window_resets (rl : RateLimiter)
    (t : ConnTable) (ip : Ip) (now : Nat) (r : ConnectionRecord)
    (hkeys : (t.map Prod.fst).Nodup)
    (hfound : RateLimiter.lookupIp t ip = some r)
    (hexp : rl.window_seconds ≤ now - r.window_start) :
    rl.check_and_record t now ip =
      (true, (ip, ⟨1, now⟩) :: rl.retainActive now t)
    ∧ RateLimiter.get_count (rl.check_and_record t now ip).2 ip = 1
    ∧ (∀ (t' : ConnTable) (now' : Nat) (ip' : Ip),
        ∀ e ∈ (rl.check_and_record t' now' ip').2,
          now' - e.2.window_start < rl.window_seconds ∨
            e.2.window_start = now')
    ∧ (1 ≤ rl.window_seconds →
        ∀ (t' : ConnTable) (now' : Nat) (ip' : Ip),
          ∀ e ∈ (rl.check_and_record t' now' ip').2,
            now' - e.2.window_start < rl.window_seconds) := by
  have hmem : (ip, r) ∈ t := RateLimiter.lookupIp_some_mem hfound
  have hnone : RateLimiter.lookupIp (rl.retainActive now t) ip = none := by
    unfold RateLimiter.lookupIp
    have hfind : (rl.retainActive now t).find? (fun e => decide (e.1 = ip)) = none := by
      rw [List.find?_eq_none]
      intro x hx hpred
      rw [decide_eq_true_eq] at hpred
      obtain ⟨hxt, hxact⟩ := RateLimiter.mem_retain_sub hx
      have hxr : x = (ip, r) := RateLimiter.nodup_keys_unique hkeys hxt hmem hpred
      rw [hxr] at hxact
      exact absurd hxact (not_lt.mpr hexp)
    rw [hfind]
    rfl
  have heq := RateLimiter.check_none_case rl t now ip hnone
  refine ⟨heq, ?_, ?_, ?_⟩
  · rw [heq]
    unfold RateLimiter.get_count
    rw [RateLimiter.lookupIp_cons_self]
    rfl
  · intro t' now' ip'
    exact RateLimiter.check_fresh_or_active rl t' now' ip'
  · intro hw t' now' ip' e he
    rcases RateLimiter.check_fresh_or_active rl t' now' ip' e he with h | h
    · exact h
    · rw [h]
      simpa using hw

/-- C5 witness: with `max = 5`, `window = 60`, an IP recorded at time 0
with count 3 is admitted again at time 60 (window age 60 ≥ 60): the call
returns `true` and the table holds the reset record with count 1 and
window start 60. -/
theorem rate_limiter_expiry_reset_witness :
    RateLimiter.check_and_record ⟨5, 60⟩ [(1, ⟨3, 0⟩)] 60 1 =
      (true, [(1, ⟨1, 60⟩)])
    ∧ RateLimiter.get_count
        (RateLimiter.check_and_record ⟨5, 60⟩ [(1, ⟨3, 0⟩)] 60 1).2 1 = 1 := by
  have h := rate_limiter_expired_window_resets ⟨5, 60⟩ [(1, ⟨3, 0⟩)] 1 60
    ⟨3, 0⟩ (by decide) (by decide) (by decide)
  exact ⟨h.1.trans (by decide), h.2.1⟩
